import Mathlib

/-!
# Verification of the wmctrllike GNOME Shell extension core

A shallow embedding of `extension.js` (the variant with focus cycling,
`FocusByCls` and `LaunchHere`).  Window handles are modelled by the record
`Win` holding the values the source reads off a `MetaWindow` through its
"call the method if present" probing: a getter that is absent, returns
`null`, or raises inside one of the source's `try { } catch` blocks is
modelled as `none`.  JS strings are Lean `String`s; JS numbers are exact
`Int`/`Nat` (all numbers involved are integers).  `localeCompare` and the
JS relational operators on strings are modelled by lexicographic
comparison of the character sequences, and `Array.prototype.sort`
(a stable comparison sort since ES2019) is modelled by a stable insertion
sort with respect to the comparator's "not greater" relation.
-/

namespace WMCtrl

/-! ## String helpers modelling the JS built-ins used by the source -/

/-- JS `String.prototype.toLowerCase` restricted to the ASCII range
(all strings handled by the extension are ASCII). -/
def jsToLower (s : String) : String := ⟨s.data.map Char.toLower⟩

/-- JS `String.prototype.trim`: strip whitespace from both ends. -/
def jsTrim (s : String) : String :=
  ⟨((s.data.dropWhile Char.isWhitespace).reverse.dropWhile Char.isWhitespace).reverse⟩

/-- JS `String.prototype.startsWith`. -/
def jsStartsWith (s p : String) : Bool := p.data.isPrefixOf s.data

/-- JS `String.prototype.slice(n)` for a non-negative start index. -/
def jsDrop (s : String) (n : Nat) : String := ⟨s.data.drop n⟩

/-! ## Hexadecimal rendering: JS `Number.prototype.toString(16)` -/

/-- The lowercase hexadecimal digit characters produced by JS
`toString(16)`. -/
def hexDigitChar (n : Nat) : Char :=
  match n with
  | 0 => '0' | 1 => '1' | 2 => '2' | 3 => '3' | 4 => '4' | 5 => '5' | 6 => '6' | 7 => '7'
  | 8 => '8' | 9 => '9' | 10 => 'a' | 11 => 'b' | 12 => 'c' | 13 => 'd' | 14 => 'e' | _ => 'f'

/-- Digit accumulation for `natToHex`; the first argument is fuel
(`n` itself suffices since the value shrinks by a factor 16 each step). -/
def natToHexCore : Nat → Nat → List Char
  | 0, _ => []
  | _+1, 0 => []
  | fuel+1, n+1 => natToHexCore fuel ((n+1) / 16) ++ [hexDigitChar ((n+1) % 16)]

/-- JS `n.toString(16)` for a non-negative integer: lowercase hex digits,
no prefix, no leading zeros, `"0"` for zero. -/
def natToHex (n : Nat) : String :=
  if n = 0 then "0" else ⟨natToHexCore n n⟩

/-- JS `n.toString(16)` for a possibly negative integer: a `-` sign
followed by the digits of the absolute value. -/
def intToHex (n : Int) : String :=
  if n < 0 then "-" ++ natToHex n.natAbs else natToHex n.toNat

/-! ## JS `Number.parseInt(s, 16)` -/

/-- Hexadecimal digit test (both cases), as accepted by `parseInt`. -/
def isHexDigitChar (c : Char) : Bool :=
  ('0' ≤ c && c ≤ '9') || ('a' ≤ c && c ≤ 'f') || ('A' ≤ c && c ≤ 'F')

/-- Value of a hexadecimal digit character. -/
def hexVal (c : Char) : Nat :=
  if '0' ≤ c && c ≤ '9' then c.toNat - 48
  else if 'a' ≤ c && c ≤ 'f' then c.toNat - 87
  else if 'A' ≤ c && c ≤ 'F' then c.toNat - 55
  else 0

/-- Accumulated value of a list of hexadecimal digit characters. -/
def digitsVal (l : List Char) : Nat :=
  l.foldl (fun acc c => 16 * acc + hexVal c) 0

/-- JS `Number.parseInt(s, 16)`: skip leading whitespace, an optional
sign, an optional `0x`/`0X` prefix, then read the longest run of hex
digits; `none` models `NaN` (no digits found).  Values are exact (the
double-precision rounding of JS is not exercised by ids of realistic
size). -/
def parseSign (l : List Char) : Int := if l.head? = some '-' then -1 else 1

/-- Strip the optional sign, then the optional `0x`/`0X` prefix. -/
def stripSignHex (l : List Char) : List Char :=
  let l := if l.head? = some '-' ∨ l.head? = some '+' then l.tail else l
  if l.take 2 = ['0', 'x'] ∨ l.take 2 = ['0', 'X'] then l.drop 2 else l

def jsParseIntHex (s : String) : Option Int :=
  let l := s.data.dropWhile Char.isWhitespace
  let ds := (stripSignHex l).takeWhile isHexDigitChar
  if ds = [] then none
  else some (parseSign l * (digitsVal ds : Int))

/-- JS `ToInt32` (the `| 0` coercion) on an exact integer. -/
def toInt32 (n : Int) : Int := (n + 2 ^ 31) % 2 ^ 32 - 2 ^ 31

/-- JS `%` on integers (truncating remainder, sign of the dividend)
followed by the source's `if (targetIndex < 0) targetIndex += len`
fix-up, as one operation. Defined below via `Int.tmod`. -/
def jsWrapIndex (a len : Int) : Int :=
  let r := Int.tmod a len
  if r < 0 then r + len else r

/-! ## The window data model -/

/-- Window types distinguished by `_isTasklistWindow`; every other type
behaves like `normal`. -/
inductive WinType
  | desktop
  | dock
  | normal
deriving Repr, DecidableEq

/-- One window handle, holding the results of every collaborator read the
source performs.  `none` models a getter that is absent, returns
`null`/`undefined`, or raises inside the enclosing `try` block. -/
structure Win where
  /-- `get_xwindow()` (X11 / Xwayland id). -/
  xid : Option Nat := none
  /-- `get_stable_sequence()`. -/
  stableSeq : Option Nat := none
  /-- `get_id()`. -/
  internalId : Option Nat := none
  /-- `get_wm_class_instance()` (`some ""` models an empty string, which
  is falsy in JS just like `null`). -/
  wmInstance : Option String := none
  /-- `get_wm_class()`. -/
  wmClass : Option String := none
  /-- `Shell.WindowTracker … get_window_app(w).get_id()`. -/
  appId : Option String := none
  /-- `Math.abs(w.hash())`, or `Date.now()` if `hash` raises: whichever
  number the ultimate fallback of `_toHexId` produces. -/
  hashFallback : Nat := 1
  /-- `is_on_all_workspaces()`. -/
  onAllWorkspaces : Bool := false
  /-- `get_workspace().index()`. -/
  wsIndex : Option Int := some 0
  /-- `skip_taskbar`. -/
  skipTaskbar : Bool := false
  /-- `get_window_type()`. -/
  winType : WinType := .normal
  /-- `get_title()`. -/
  title : Option String := some ""
  /-- `minimized`. -/
  minimized : Bool := false
  /-- `get_frame_rect()` position (`x`, `y`). -/
  frameRect : Option (Int × Int) := some (0, 0)
  /-- whether `move_resize_frame` is available. -/
  hasMoveResize : Bool := true
  /-- whether `move_resize_frame` raises when invoked. -/
  moveResizeRaises : Bool := false
deriving Repr, DecidableEq

/-- The ambient window-system state read by the operations. -/
structure World where
  /-- `global.get_window_actors()`: each actor's `meta_window`
  (`none` models an actor without one, skipped by the enumeration). -/
  actors : List (Option Win) := []
  /-- active workspace index (`none`: unavailable, the source falls back
  to `0`). -/
  activeWs : Option Int := some 0
  /-- `global.display` focus window. -/
  focusWindow : Option Win := none
deriving Repr, DecidableEq

/-! ## Identity resolver (`_toHexId`), classifier, order key -/

/-- JS falsiness of an optional string (`null`, `undefined` and `""` are
falsy). -/
def jsFalsyStr (o : Option String) : Bool :=
  match o with
  | none => true
  | some s => s == ""

/-- The Wayland/native tail of `_toHexId`: stable sequence, else
`get_id`, else the object-hash fallback. -/
def toHexIdSeq (w : Win) : String :=
  let seq : Nat :=
    match w.stableSeq with
    | some n => n
    | none => match w.internalId with
      | some n => n
      | none => 0
  let seq := if seq = 0 then w.hashFallback else seq
  "0x" ++ natToHex seq

/-- `_toHexId`: prefer a non-zero X11 window id, then the sequence
fallbacks. -/
def toHexId (w : Win) : String :=
  match w.xid with
  | some x => if x ≠ 0 then "0x" ++ natToHex x else toHexIdSeq w
  | none => toHexIdSeq w

/-- `_classInstance`: native instance/class, application-tracker fallback
when either is missing, `"unknown"` for what remains missing; lowercased
`instance.class`. -/
def classInstance (w : Win) : String :=
  let inst := w.wmInstance
  let cls := w.wmClass
  let useTracker := jsFalsyStr inst || jsFalsyStr cls
  let inst := if useTracker && jsFalsyStr inst then
      (match w.appId with | some a => some a | none => inst)
    else inst
  let cls := if useTracker && jsFalsyStr cls then
      (match w.appId with | some a => some a | none => cls)
    else cls
  let instS := match inst with
    | none => "unknown"
    | some s => if s = "" then "unknown" else s
  let clsS := match cls with
    | none => "unknown"
    | some s => if s = "" then "unknown" else s
  jsToLower instS ++ "." ++ jsToLower clsS

/-- Last resort of `_creationOrderKey`: parse the hex id. -/
def creationOrderKeyFromHex (w : Win) : Int :=
  let hex := toHexId w
  let s := if jsStartsWith hex "0x" then jsDrop hex 2 else hex
  match jsParseIntHex s with
  | some n => n
  | none => 0

/-- `_creationOrderKey`: stable sequence if positive, else `get_id` if
positive, else the value parsed back from the hex id, else `0`. -/
def creationOrderKey (w : Win) : Int :=
  match w.stableSeq with
  | some k =>
    if 0 < k then (k : Int)
    else match w.internalId with
      | some k2 => if 0 < k2 then (k2 : Int) else creationOrderKeyFromHex w
      | none => creationOrderKeyFromHex w
  | none => match w.internalId with
    | some k2 => if 0 < k2 then (k2 : Int) else creationOrderKeyFromHex w
    | none => creationOrderKeyFromHex w

/-- `_workspaceIndex`: `-1` for a pinned window, else the owning
workspace's index, else `0`. -/
def workspaceIndex (w : Win) : Int :=
  if w.onAllWorkspaces then -1
  else match w.wsIndex with
    | some i => i
    | none => 0

/-- `_activeWorkspaceIndex`. -/
def activeWorkspaceIndex (st : World) : Int := st.activeWs.getD 0

/-- `_activeWindowId`: the focus window's hex id, `""` when there is no
focus window.  Note: no taskbar-eligibility filtering here. -/
def activeWindowId (st : World) : String :=
  match st.focusWindow with
  | some w => toHexId w
  | none => ""

/-- `_isTasklistWindow`: exclude `skip_taskbar` windows and
desktop/dock-typed windows. -/
def isTasklistWindow (w : Win) : Bool :=
  if w.skipTaskbar then false
  else match w.winType with
    | .desktop => false
    | .dock => false
    | .normal => true

/-! ## Window records and the registry snapshot (`_listWindowsItems`) -/

/-- One record of the snapshot, as assembled in the enumeration loop. -/
structure Item where
  key : Int
  id : String
  desk : Int
  cls : String
  title : String
deriving Repr, DecidableEq

/-- The record built for one eligible window. -/
def mkItem (w : Win) : Item :=
  { key := creationOrderKey w
    id := toHexId w
    desk := workspaceIndex w
    cls := classInstance w
    title := (w.title.getD "") }

/-- Three-way comparison from a linear order; models both JS numeric
comparison (`a - b` as a comparator) and `localeCompare` (lexicographic
comparison of the character sequences). -/
def cmpOfLt {α : Type} [LinearOrder α] (a b : α) : Ordering :=
  if a < b then .lt else if b < a then .gt else .eq

/-- The sort comparator of `_listWindowsItems`: creation-order key, then
workspace, then class, then title, then id. -/
def cmpItems (a b : Item) : Ordering :=
  if a.key ≠ b.key then cmpOfLt a.key b.key
  else if a.desk ≠ b.desk then cmpOfLt a.desk b.desk
  else
    let cmpCls := cmpOfLt a.cls b.cls
    if cmpCls ≠ .eq then cmpCls
    else
      let cmpTitle := cmpOfLt a.title b.title
      if cmpTitle ≠ .eq then cmpTitle
      else cmpOfLt a.id b.id

/-- The non-strict order induced by the comparator ("does not compare
greater"). -/
def ItemLe (a b : Item) : Prop := cmpItems a b ≠ .gt

instance : DecidableRel ItemLe := fun a b => by unfold ItemLe; infer_instance

/-- The sort of `_listWindowsItems`.  JS `Array.prototype.sort` is a
stable comparison sort; for a transitive, total comparator its output is
the unique stable reordering, here realised by insertion sort. -/
def sortItems (l : List Item) : List Item := List.insertionSort ItemLe l

/-- `_listWindowsItems`: enumerate actors, skip actors without a window
and windows failing the taskbar predicate, build records, sort. -/
def listWindowsItems (st : World) : List Item :=
  sortItems (((st.actors.filterMap id).filter isTasklistWindow).map mkItem)

/-- One line of the `ListWindows` text rendering. -/
def itemLine (it : Item) : String :=
  it.id ++ " " ++ toString it.desk ++ " " ++ it.cls ++ " " ++ it.title

/-- `_listWindows` (the text adapter, minus its `try`/`catch`). -/
def listWindows (st : World) : List String :=
  (listWindowsItems st).map itemLine

/-- `_listWindowsText`. -/
def listWindowsText (st : World) : String :=
  String.intercalate "\n" (listWindows st)

/-! ## Id normalisation and window lookup -/

/-- `_normalizeIdString`: trim, lowercase, strip an optional `0x`, parse
as hexadecimal, re-render canonically; `none` models the `null` returned
on `NaN`. -/
def normalizeIdString (id : String) : Option String :=
  let s := jsToLower (jsTrim id)
  let s := if jsStartsWith s "0x" then jsDrop s 2 else s
  match jsParseIntHex s with
  | none => none
  | some n => some ("0x" ++ intToHex n)

/-- `_findWindowById`: normalise, then scan eligible windows for a hex-id
match. -/
def findWindowById (st : World) (id : String) : Option Win :=
  match normalizeIdString id with
  | none => none
  | some norm =>
    (st.actors.filterMap (fun o => o)).find?
      (fun w => isTasklistWindow w && (jsToLower (toHexId w) == norm))

/-! ## Focus cycling

The three `_focusRelative…Window` operations are embedded up to the final
`_activateWindowById` call: each embedding returns the id handed to the
activation primitive, or `none` where the source returns `false` before
selecting a window. -/

/-- The denylisted class. -/
def COPYQ_CLS : String := "copyq.copyq"

/-- The shared start-position computation: `findIndex` of the active
window, with the `-1`/`0` fallback when it is absent
(`idx = (delta > 0) ? -1 : 0`). -/
def cycleStart (items : List Item) (activeId : String) (delta : Int) : Int :=
  match items.findIdx? (fun it => jsToLower it.id == jsToLower activeId) with
  | some i => (i : Int)
  | none => if delta > 0 then -1 else 0

/-- The circular scan shared by the other-app and any-app policies:
try `step = 1, …, stepsLeft`, index `(idx + delta*step)` wrapped into
`[0, len)`, return the first candidate accepted by `pred`. -/
def circScan (inWs : List Item) (idx delta : Int) (pred : Item → Bool) :
    Nat → Nat → Option Item
  | 0, _ => none
  | stepsLeft + 1, step =>
    let len : Int := inWs.length
    let targetIndex := jsWrapIndex (idx + delta * (step : Int)) len
    match inWs[targetIndex.toNat]? with
    | none => circScan inWs idx delta pred stepsLeft (step + 1)
    | some cand =>
      if pred cand then some cand
      else circScan inWs idx delta pred stepsLeft (step + 1)

/-- The same-app route's resolution of the active window's class:
`_findWindowById` first (`_classInstance` of the result), then the lookup
in the sorted item list. -/
def activeClsResolved (st : World) : Option String :=
  match findWindowById st (activeWindowId st) with
  | some w => some (classInstance w)
  | none =>
    ((listWindowsItems st).find?
      (fun it => jsToLower it.id == jsToLower (activeWindowId st))).map Item.cls

/-- The other-app route's resolution of the active window's class: the
lookup in the sorted item list first, then `_findWindowById`. -/
def activeClsOtherResolved (st : World) : Option String :=
  match (listWindowsItems st).find?
      (fun it => jsToLower it.id == jsToLower (activeWindowId st)) with
  | some it => some it.cls
  | none =>
    match findWindowById st (activeWindowId st) with
    | some w => some (classInstance w)
    | none => none

/-- The workspace restriction shared by the three policies: active
workspace or pinned (`it.desk === wsIdx || it.desk === -1`). -/
def wsFiltered (st : World) : List Item :=
  (listWindowsItems st).filter
    (fun it => it.desk == activeWorkspaceIndex st || it.desk == -1)

/-- The same-app restriction: additionally the active window's class. -/
def sameAppFiltered (st : World) (activeCls : String) : List Item :=
  (listWindowsItems st).filter
    (fun it => it.cls == activeCls && (it.desk == activeWorkspaceIndex st || it.desk == -1))

/-- `_focusRelativeSameAppWindow`, up to activation. -/
def focusRelativeSameAppTarget (st : World) (delta : Int) : Option String :=
  let activeId := activeWindowId st
  if activeId = "" then none
  else
    let all := listWindowsItems st
    if all = [] then none
    else
      match activeClsResolved st with
      | none => none
      | some activeCls =>
        let items := sameAppFiltered st activeCls
        if items = [] then none
        else
          let idx : Int := cycleStart items activeId delta
          let len : Int := items.length
          let targetIndex : Int :=
            if items.length = 1 then 0 else jsWrapIndex (idx + delta) len
          (items[targetIndex.toNat]?).map Item.id

/-- `_focusRelativeOtherAppWindow`, up to activation. -/
def focusRelativeOtherAppTarget (st : World) (delta : Int) : Option String :=
  let activeId := activeWindowId st
  if activeId = "" then none
  else
    let all := listWindowsItems st
    if all = [] then none
    else
      match activeClsOtherResolved st with
      | none => none
      | some activeCls =>
        let inWs := wsFiltered st
        if inWs = [] then none
        else
          let idx : Int := cycleStart inWs activeId delta
          if inWs.length = 1 then
            match inWs[0]? with
            | some only =>
              if only.cls ≠ activeCls ∧ only.cls ≠ COPYQ_CLS then some only.id else none
            | none => none
          else
            (circScan inWs idx delta
              (fun cand => !(cand.cls == COPYQ_CLS) && !(cand.cls == activeCls))
              inWs.length 1).map Item.id

/-- `_focusRelativeAnyAppWindow`, up to activation. -/
def focusRelativeAnyAppTarget (st : World) (delta : Int) : Option String :=
  let activeId := activeWindowId st
  if activeId = "" then none
  else
    let all := listWindowsItems st
    if all = [] then none
    else
      let inWs := wsFiltered st
      if inWs = [] then none
      else
        let idx : Int := cycleStart inWs activeId delta
        (circScan inWs idx delta
          (fun cand => !(cand.cls == COPYQ_CLS) && !(jsToLower cand.id == jsToLower activeId))
          inWs.length 1).map Item.id

/-! ## Resize -/

/-- The arguments passed to `move_resize_frame`. -/
structure MoveResizeCall where
  userOp : Bool
  x : Int
  y : Int
  w : Int
  h : Int
deriving Repr, DecidableEq

/-- `_resizeWindowById`: the boolean result together with the
`move_resize_frame` invocation performed, if any. -/
def resizeWindowById (st : World) (id : String) (width height : Int) :
    Bool × Option MoveResizeCall :=
  match findWindowById st id with
  | none => (false, none)
  | some w =>
    let ww := toInt32 width
    let hh := toInt32 height
    if ¬(ww > 0 ∧ hh > 0) then (false, none)
    else
      let pos : Int × Int :=
        match w.frameRect with
        | some (a, b) => (a, b)
        | none => (0, 0)
      if w.hasMoveResize then
        (if w.moveResizeRaises then false else true,
         some { userOp := true, x := pos.1, y := pos.2, w := ww, h := hh })
      else (false, none)

/-! ## Launch tracking (`_launchHere`) -/

/-- `Math.max(...items.map(it => it.key))` guarded by the emptiness
check, i.e. the `maxKey` threshold recorded at spawn time. -/
def maxKeyOf (items : List Item) : Int :=
  match items.map Item.key with
  | [] => 0
  | k :: ks => ks.foldl max k

/-- What the `window-created` handler does with one new window. -/
inductive CreatedAction
  | matched
  | subWatch
  | ignored
deriving Repr, DecidableEq

/-- The decision taken by the `window-created` handler: direct match when
the class already equals the expected id and the key is above the
threshold; otherwise watch the class-change signal, but only for windows
above the threshold. -/
def windowCreatedAction (maxKey : Int) (appId : String) (w : Win) : CreatedAction :=
  let winCls := classInstance w
  let winKey := creationOrderKey w
  if winCls == jsToLower appId ∧ winKey > maxKey then .matched
  else if winKey > maxKey then .subWatch
  else .ignored

/-- The test applied inside the `notify::wm-class` handler. -/
def classChangeMatches (appId : String) (w : Win) : Bool :=
  classInstance w == jsToLower appId

/-! ## The launch-watch resource machine

A transition system over the subscriptions and timers `_launchHere`
creates, mirroring the handler bodies literally: the `window-created`
subscription (`handlerLive`), the 10-second outer timer
(`outerTimerLive`), and per candidate window a `notify::wm-class`
subscription (`notifyLive`) with its 5-second sub-timeout timer
(`subTimerLive`).  The host event loop is single-threaded: an event is
processed to completion before the next one. -/

/-- The per-candidate resources created on the delayed path. -/
structure CandWatch where
  winId : Nat
  notifyLive : Bool
  subTimerLive : Bool
deriving Repr, DecidableEq

/-- The resources of one in-flight launch watch. -/
structure WatchState where
  handlerLive : Bool
  outerTimerLive : Bool
  cands : List CandWatch
  matched : Bool
deriving Repr, DecidableEq

/-- State right after a successful spawn. -/
def initialWatch : WatchState :=
  { handlerLive := true, outerTimerLive := true, cands := [], matched := false }

/-- Events delivered by the event loop to the watch's handlers. -/
inductive LaunchEvent
  | windowCreated (winId : Nat) (key : Int) (cls : String)
  | classChanged (winId : Nat) (newCls : String)
  | subTimeout (winId : Nat)
  | outerTimeout
deriving Repr, DecidableEq

/-- One event-loop turn of the launch watch (`appIdLower` is
`appId.toLowerCase()`, `maxKey` the spawn-time threshold). -/
def launchStep (appIdLower : String) (maxKey : Int) (s : WatchState) :
    LaunchEvent → WatchState
  | .windowCreated winId key cls =>
    -- the handler only runs while the subscription is connected
    if !s.handlerLive then s
    else if cls == appIdLower && decide (key > maxKey) then
      -- direct match: disconnect handler, remove outer timer
      { s with matched := true, handlerLive := false, outerTimerLive := false }
    else if decide (key > maxKey) then
      -- delayed path: connect notify::wm-class and start the 5 s timer
      { s with cands := s.cands ++ [{ winId := winId, notifyLive := true, subTimerLive := true }] }
    else s
  | .classChanged winId newCls =>
    match s.cands.find? (fun c => c.winId == winId) with
    | none => s
    | some c =>
      -- the notify handler only runs while its subscription is connected
      if c.notifyLive && (newCls == appIdLower) then
        -- delayed match: disconnect handler and this notify subscription,
        -- remove the outer timer; the 5 s sub-timer is NOT removed
        let cands := s.cands.map
          (fun c2 => if c2.winId == winId then { c2 with notifyLive := false } else c2)
        { s with matched := true, handlerLive := false, outerTimerLive := false,
                 cands := cands }
      else s
  | .subTimeout winId =>
    match s.cands.find? (fun c => c.winId == winId) with
    | none => s
    | some c =>
      -- the 5 s timer fires once: disconnect the notify subscription
      if c.subTimerLive then
        let cands := s.cands.map
          (fun c2 => if c2.winId == winId then
            { c2 with notifyLive := false, subTimerLive := false } else c2)
        { s with cands := cands }
      else s
  | .outerTimeout =>
    if s.outerTimerLive then
      { s with handlerLive := false, outerTimerLive := false }
    else s

/-- Run the watch over a sequence of event-loop turns. -/
def runWatch (appIdLower : String) (maxKey : Int) (events : List LaunchEvent) : WatchState :=
  events.foldl (launchStep appIdLower maxKey) initialWatch

/-- A watch state with no live subscription or timer. -/
def WatchState.clean (s : WatchState) : Prop :=
  s.handlerLive = false ∧ s.outerTimerLive = false ∧
    ∀ c ∈ s.cands, c.notifyLive = false ∧ c.subTimerLive = false

instance (s : WatchState) : Decidable s.clean := by
  unfold WatchState.clean; infer_instance

/-! ## Exception propagation to the IPC layer

The source wraps the body of every D-Bus handler's implementation in
`try { } catch` — except `_launchHere`.  We model the one collaborator
fault needed to observe the difference: `global.get_window_actors()`
raising.  `Except Unit` results make an escaped exception observable as
`.error ()`. -/

/-- A world together with the fault flag for the enumeration call. -/
structure WorldE extends World where
  actorsRaise : Bool := false
deriving Repr, DecidableEq

/-- `global.get_window_actors()` under the fault model. -/
def getWindowActorsE (st : WorldE) : Except Unit (List (Option Win)) :=
  if st.actorsRaise then .error () else .ok st.actors

/-- `_listWindowsItems` propagates a raise (it has no `try`/`catch` of
its own). -/
def listWindowsItemsE (st : WorldE) : Except Unit (List Item) :=
  match getWindowActorsE st with
  | .error e => .error e
  | .ok actors => .ok (sortItems ((actors.filterMap id).filter isTasklistWindow |>.map mkItem))

/-- `_listWindows` catches and degrades to `[]`. -/
def listWindowsE (st : WorldE) : List String :=
  match listWindowsItemsE st with
  | .error _ => []
  | .ok items => items.map itemLine

/-- `_listWindowsText` catches and degrades to `""`: the `ListWindows`
handler never lets the raise escape. -/
def listWindowsTextE (st : WorldE) : Except Unit String :=
  .ok (String.intercalate "\n" (listWindowsE st))

/-- `_launchHere` up to the spawn call: it calls `_listWindowsItems`
with no enclosing `try`/`catch`, so a raise escapes to the IPC layer;
otherwise it records the threshold, spawns (returning `false` if the
spawn raises) and returns `true`. -/
def launchHereE (st : WorldE) (spawnRaises : Bool) : Except Unit Bool :=
  match listWindowsItemsE st with
  | .error e => .error e
  | .ok _items =>
    if spawnRaises then .ok false
    else .ok true

/-! ## Order-theoretic facts about the snapshot comparator -/

theorem cmpOfLt_eq_lt {α : Type} [LinearOrder α] {a b : α} : cmpOfLt a b = .lt ↔ a < b := by
  unfold cmpOfLt
  split_ifs with h1 h2 <;> simp_all

theorem cmpOfLt_eq_eq {α : Type} [LinearOrder α] {a b : α} : cmpOfLt a b = .eq ↔ a = b := by
  unfold cmpOfLt
  split_ifs with h1 h2
  · simp [ne_of_lt h1]
  · simp [ne_of_gt h2]
  · simp [le_antisymm (le_of_not_lt h2) (le_of_not_lt h1)]

theorem cmpOfLt_ne_gt {α : Type} [LinearOrder α] {a b : α} : cmpOfLt a b ≠ .gt ↔ a ≤ b := by
  unfold cmpOfLt
  split_ifs with h1 h2
  · simp [le_of_lt h1]
  · simp [not_le.mpr h2]
  · simp [le_of_not_lt h2]

theorem cmpOfLt_swap {α : Type} [LinearOrder α] {a b : α} :
    (cmpOfLt a b).swap = cmpOfLt b a := by
  rcases lt_trichotomy a b with h | h | h
  · simp [cmpOfLt, h, lt_asymm h, Ordering.swap]
  · subst h; simp [cmpOfLt, lt_irrefl, Ordering.swap]
  · simp [cmpOfLt, h, lt_asymm h, Ordering.swap]

instance instTransCmpOfLt {α : Type} [LinearOrder α] :
    Batteries.TransCmp (fun a b : α => cmpOfLt a b) where
  symm _ _ := cmpOfLt_swap
  le_trans h1 h2 := by
    rw [cmpOfLt_ne_gt] at h1 h2 ⊢
    exact h1.trans h2

theorem then_eq_of_ne_eq {o : Ordering} (p : Ordering) (h : o ≠ .eq) : o.then p = o := by
  cases o <;> simp_all [Ordering.then]

theorem then_ne_gt_iff {o p : Ordering} :
    o.then p ≠ .gt ↔ o = .lt ∨ (o = .eq ∧ p ≠ .gt) := by
  cases o <;> simp [Ordering.then]

/-- The comparator, written as an explicit lexicographic composition. -/
def cmpItemsLex : Item → Item → Ordering :=
  compareLex (Ordering.byKey Item.key cmpOfLt)
    (compareLex (Ordering.byKey Item.desk cmpOfLt)
      (compareLex (Ordering.byKey Item.cls cmpOfLt)
        (compareLex (Ordering.byKey Item.title cmpOfLt)
          (Ordering.byKey Item.id cmpOfLt))))

theorem eq_then_self (o : Ordering) : Ordering.eq.then o = o := rfl

theorem lt_then_self (o : Ordering) : Ordering.lt.then o = .lt := rfl

theorem gt_then_self (o : Ordering) : Ordering.gt.then o = .gt := rfl

theorem cmpItems_eq_lex : cmpItems = cmpItemsLex := by
  funext a b
  show (if a.key ≠ b.key then cmpOfLt a.key b.key
    else if a.desk ≠ b.desk then cmpOfLt a.desk b.desk
    else if cmpOfLt a.cls b.cls ≠ .eq then cmpOfLt a.cls b.cls
    else if cmpOfLt a.title b.title ≠ .eq then cmpOfLt a.title b.title
    else cmpOfLt a.id b.id) =
    (cmpOfLt a.key b.key).then ((cmpOfLt a.desk b.desk).then ((cmpOfLt a.cls b.cls).then
      ((cmpOfLt a.title b.title).then (cmpOfLt a.id b.id))))
  by_cases hk : a.key = b.key
  · rw [if_neg (by simp [hk]), cmpOfLt_eq_eq.mpr hk, eq_then_self]
    by_cases hd : a.desk = b.desk
    · rw [if_neg (by simp [hd]), cmpOfLt_eq_eq.mpr hd, eq_then_self]
      rcases hc : cmpOfLt a.cls b.cls with _ | _ | _
      · exact (lt_then_self _).symm
      · rw [eq_then_self]
        rcases ht : cmpOfLt a.title b.title with _ | _ | _
        · exact (lt_then_self _).symm
        · rw [eq_then_self]; simp
        · exact (gt_then_self _).symm
      · exact (gt_then_self _).symm
    · rw [if_pos hd, then_eq_of_ne_eq _ (fun h => hd (cmpOfLt_eq_eq.mp h))]
  · rw [if_pos hk, then_eq_of_ne_eq _ (fun h => hk (cmpOfLt_eq_eq.mp h))]

theorem transCmp_cmpItemsLex : Batteries.TransCmp cmpItemsLex := by
  unfold cmpItemsLex; infer_instance

instance transCmp_cmpItems : Batteries.TransCmp cmpItems :=
  cmpItems_eq_lex ▸ transCmp_cmpItemsLex

instance : IsTrans Item ItemLe :=
  ⟨fun _ _ _ h1 h2 => Batteries.TransCmp.le_trans h1 h2⟩

instance : IsTotal Item ItemLe := by
  constructor
  intro a b
  unfold ItemLe
  by_cases h : cmpItems a b = .gt
  · have : cmpItems b a = .lt := Batteries.OrientedCmp.cmp_eq_gt.mp h
    right; simp [this]
  · left; exact h

/-- The sort order named by the specification: ascending in the tuple
`(orderKey, workspaceIndex, classKey, title, id)`, the string fields
compared lexicographically (the `<` of `String` is lexicographic in the
character sequence). -/
def specTupleLe (a b : Item) : Prop :=
  a.key < b.key ∨ a.key = b.key ∧ (a.desk < b.desk ∨ a.desk = b.desk ∧
    (a.cls < b.cls ∨ a.cls = b.cls ∧ (a.title < b.title ∨ a.title = b.title ∧ a.id ≤ b.id)))

theorem itemLe_iff_specTupleLe {a b : Item} : ItemLe a b ↔ specTupleLe a b := by
  unfold ItemLe specTupleLe
  rw [cmpItems_eq_lex]
  unfold cmpItemsLex Ordering.byKey compareLex
  simp only [then_ne_gt_iff, cmpOfLt_eq_lt, cmpOfLt_eq_eq, cmpOfLt_ne_gt]

theorem specTupleLe_key_le {a b : Item} (h : specTupleLe a b) : a.key ≤ b.key := by
  rcases h with h | ⟨h, _⟩
  · exact le_of_lt h
  · exact le_of_eq h

/-- The source's `%` followed by the negative fix-up computes the
mathematical (Euclidean) modulus for a positive length. -/
theorem jsWrapIndex_eq_emod (a len : Int) (h : 0 < len) : jsWrapIndex a len = a % len := by
  have hcong : Int.tmod a len % len = a % len := by
    rw [Int.tmod_def, sub_eq_add_neg, ← Int.mul_neg, Int.add_mul_emod_self_left]
  have hub : Int.tmod a len < len := Int.tmod_lt_of_pos a h
  have hlb : -len < Int.tmod a len := by
    have h1 : Int.tmod (-a) len < len := Int.tmod_lt_of_pos (-a) h
    have h2 : Int.tmod (-a) len = -Int.tmod a len := by
      rw [Int.tmod_def, Int.tmod_def, Int.neg_tdiv]
      ring
    omega
  unfold jsWrapIndex
  by_cases hneg : Int.tmod a len < 0
  · rw [if_pos hneg]
    have e1 : (Int.tmod a len + len) % len = Int.tmod a len + len :=
      Int.emod_eq_of_lt (by omega) (by omega)
    rw [← e1, Int.add_emod_self, hcong]
  · rw [if_neg hneg]
    have e1 : Int.tmod a len % len = Int.tmod a len :=
      Int.emod_eq_of_lt (by omega) hub
    rw [← hcong, e1]

/-! ## Concrete worlds used to witness the theorems -/

/-- A plain test window: native numeric id and sequence `n`, instance and
class `c`, on workspace `d`. -/
def mkTestWin (n : Nat) (c : String) (d : Int) : Win :=
  { xid := some n, stableSeq := some n, wmInstance := some c, wmClass := some c,
    wsIndex := some d }

/-- Two same-class windows on workspace 0. -/
def stC1 : World :=
  { actors := [some (mkTestWin 1 "A" 0), some (mkTestWin 2 "A" 0)]
    activeWs := some 0
    focusWindow := some (mkTestWin 1 "A" 0) }

/-! ## C1 -/

/-- C1: Every snapshot produced by the window registry is sorted
ascending by the tuple `(orderKey, workspaceIndex, classKey, title, id)`
with lexicographic string comparison; building the snapshot twice on the
same window-system state yields identical sequences; and an entry with a
strictly greater order key never sorts before one with a smaller key. -/
theorem snapshot_sorted_deterministic (st : World) :
    (listWindowsItems st).Sorted specTupleLe ∧
    listWindowsItems st = listWindowsItems st ∧
    (∀ (i j : Nat) (a b : Item), i < j →
      (listWindowsItems st)[i]? = some a → (listWindowsItems st)[j]? = some b →
      ¬ b.key < a.key) := by
  have hs : (listWindowsItems st).Sorted ItemLe := by
    unfold listWindowsItems sortItems
    exact List.sorted_insertionSort ItemLe _
  refine ⟨hs.imp (fun h => itemLe_iff_specTupleLe.mp h), rfl, ?_⟩
  intro i j a b hij ha hb
  rw [List.getElem?_eq_some] at ha hb
  obtain ⟨hi, ha⟩ := ha
  obtain ⟨hj, hb⟩ := hb
  have hrel := List.pairwise_iff_get.mp hs ⟨i, hi⟩ ⟨j, hj⟩ (by exact hij)
  simp only [List.get_eq_getElem] at hrel
  rw [ha, hb] at hrel
  exact not_lt.mpr (specTupleLe_key_le (itemLe_iff_specTupleLe.mp hrel))

/-- Witness for C1 at a concrete two-window state. -/
theorem snapshot_sorted_deterministic_witness :
    ¬ (⟨2, "0x2", 0, "a.a", ""⟩ : Item).key < (⟨1, "0x1", 0, "a.a", ""⟩ : Item).key :=
  (snapshot_sorted_deterministic stC1).2.2 0 1 _ _ (by decide) (by decide) (by decide)

/-! ## C2 -/

/-- Windows `[A1(key 1), A2(key 2), B1(key 3)]`, classes `A, A, B`, all on
workspace 0, `A1` focused. -/
def stC2a : World :=
  { actors := [some (mkTestWin 1 "A" 0), some (mkTestWin 2 "A" 0), some (mkTestWin 3 "B" 0)]
    activeWs := some 0
    focusWindow := some (mkTestWin 1 "A" 0) }

/-- Same windows, `A2` focused. -/
def stC2b : World := { stC2a with focusWindow := some (mkTestWin 2 "A" 0) }

/-- C2: the same-class policy activates the window at position
`(index + delta) mod length` of the class-and-workspace-filtered list,
where `index` is the active window's position, `-1` (one-before-first)
when it is absent and `delta > 0`, and `0` (first) when it is absent and
`delta < 0`; in the concrete `[A1, A2, B1]` scenario Next from `A1`
activates `A2` and Next from `A2` wraps back to `A1`. -/
theorem focusSameApp_wrapped_index :
    (∀ (st : World) (delta : Int) (c : String),
      activeWindowId st ≠ "" →
      activeClsResolved st = some c →
      sameAppFiltered st c ≠ [] →
      focusRelativeSameAppTarget st delta =
        ((sameAppFiltered st c)[((cycleStart (sameAppFiltered st c) (activeWindowId st) delta
            + delta) % ((sameAppFiltered st c).length : Int)).toNat]?).map Item.id) ∧
    focusRelativeSameAppTarget stC2a 1 = some "0x2" ∧
    focusRelativeSameAppTarget stC2b 1 = some "0x1" := by
  refine ⟨?_, by decide, by decide⟩
  intro st delta c hA hC hF
  have hAll : listWindowsItems st ≠ [] := by
    intro h
    apply hF
    unfold sameAppFiltered
    rw [h]
    rfl
  unfold focusRelativeSameAppTarget
  rw [if_neg hA, if_neg hAll, hC]
  simp only
  rw [if_neg hF]
  have hlen : 0 < (sameAppFiltered st c).length := List.length_pos.mpr hF
  by_cases h1 : (sameAppFiltered st c).length = 1
  · rw [if_pos h1, h1]
    simp [Int.emod_one]
  · rw [if_neg h1,
      jsWrapIndex_eq_emod _ _ (by exact_mod_cast hlen)]

/-- Witness for C2: the general statement applied at the concrete
scenario. -/
theorem focusSameApp_wrapped_index_witness :
    focusRelativeSameAppTarget stC2a 1 =
      ((sameAppFiltered stC2a "a.a")[((cycleStart (sameAppFiltered stC2a "a.a")
        (activeWindowId stC2a) 1 + 1) % ((sameAppFiltered stC2a "a.a").length : Int)).toNat]?).map
        Item.id :=
  focusSameApp_wrapped_index.1 stC2a 1 "a.a" (by decide) (by decide) (by decide)

/-! ## The circular scan, characterised declaratively -/

/-- One probe of the circular scan: the candidate at the wrapped index
`(idx + delta·s) mod length`, if it passes the policy filter. -/
def tryStep (inWs : List Item) (idx delta : Int) (pred : Item → Bool) (s : Nat) : Option Item :=
  match inWs[((idx + delta * (s : Int)) % ((inWs.length : Int))).toNat]? with
  | some cand => if pred cand then some cand else none
  | none => none

/-- The scanning loop returns the first passing candidate over the probe
sequence `step, step+1, …, step+n-1`. -/
theorem circScan_eq_findSome (inWs : List Item) (idx delta : Int) (pred : Item → Bool)
    (hne : inWs ≠ []) :
    ∀ (n step : Nat), circScan inWs idx delta pred n step =
      (List.range' step n).findSome? (tryStep inWs idx delta pred) := by
  have hlen : 0 < ((inWs.length : Int)) := by
    have := List.length_pos.mpr hne
    exact_mod_cast this
  intro n
  induction n with
  | zero => intro step; simp [circScan]
  | succ m ih =>
    intro step
    rw [List.range'_succ, List.findSome?_cons]
    unfold circScan
    dsimp only
    rw [jsWrapIndex_eq_emod _ _ hlen]
    unfold tryStep
    rcases hc : inWs[((idx + delta * (step : Int)) % ((inWs.length : Int))).toNat]? with _ | cand
    · simpa using ih (step + 1)
    · by_cases hp : pred cand
      · simp [hp]
      · simpa [hp] using ih (step + 1)

/-! ## C3 -/

/-- Windows `[A1, B1, CopyQCls1]` in snapshot order on workspace 0, `A1`
focused (`CopyQ` windows classify as the denylisted `copyq.copyq`). -/
def stC3 : World :=
  { actors := [some (mkTestWin 1 "A" 0), some (mkTestWin 2 "B" 0), some (mkTestWin 3 "CopyQ" 0)]
    activeWs := some 0
    focusWindow := some (mkTestWin 1 "A" 0) }

/-- C3: the other-class policy scans circularly from the active position
and activates the first window whose class differs from the active class
and is not the denylisted class (`none` after a full circuit); a
single-window workspace is handled by the fast path, activating the
window iff its class differs and is not denylisted; concretely, with
`[A1, B1, CopyQCls1]` and `A1` active, Next lands on `B1`. -/
theorem focusOtherApp_scan_singleton :
    (∀ (st : World) (delta : Int) (c : String),
      activeWindowId st ≠ "" →
      activeClsOtherResolved st = some c →
      2 ≤ (wsFiltered st).length →
      focusRelativeOtherAppTarget st delta =
        ((List.range' 1 (wsFiltered st).length).findSome?
          (tryStep (wsFiltered st) (cycleStart (wsFiltered st) (activeWindowId st) delta) delta
            (fun cand => !(cand.cls == COPYQ_CLS) && !(cand.cls == c)))).map Item.id) ∧
    (∀ (st : World) (delta : Int) (c : String) (only : Item),
      activeWindowId st ≠ "" →
      activeClsOtherResolved st = some c →
      wsFiltered st = [only] →
      (focusRelativeOtherAppTarget st delta = some only.id ↔
        (only.cls ≠ c ∧ only.cls ≠ COPYQ_CLS)) ∧
      (¬(only.cls ≠ c ∧ only.cls ≠ COPYQ_CLS) →
        focusRelativeOtherAppTarget st delta = none)) ∧
    focusRelativeOtherAppTarget stC3 1 = some "0x2" := by
  refine ⟨?_, ?_, by decide⟩
  · intro st delta c hA hC h2
    have hne : wsFiltered st ≠ [] := by
      intro h
      rw [h] at h2
      simp at h2
    have hAll : listWindowsItems st ≠ [] := by
      intro h
      apply hne
      unfold wsFiltered
      rw [h]
      rfl
    unfold focusRelativeOtherAppTarget
    rw [if_neg hA, if_neg hAll, hC]
    simp only
    rw [if_neg hne, if_neg (by omega : ¬ (wsFiltered st).length = 1)]
    rw [circScan_eq_findSome _ _ _ _ hne]
  · intro st delta c only hA hC hOne
    have hne : wsFiltered st ≠ [] := by rw [hOne]; simp
    have hAll : listWindowsItems st ≠ [] := by
      intro h
      apply hne
      unfold wsFiltered
      rw [h]
      rfl
    unfold focusRelativeOtherAppTarget
    rw [if_neg hA, if_neg hAll, hC]
    simp only
    rw [if_neg hne, if_pos (by rw [hOne]; rfl : (wsFiltered st).length = 1), hOne]
    simp only [List.getElem?_cons_zero]
    constructor
    · by_cases hcond : only.cls ≠ c ∧ only.cls ≠ COPYQ_CLS
      · simp [hcond]
      · simp [hcond]
    · intro hcond
      simp [hcond]

/-- Witness for C3: the scan characterisation applied at the concrete
three-window scenario. -/
theorem focusOtherApp_scan_singleton_witness :
    focusRelativeOtherAppTarget stC3 1 =
      ((List.range' 1 (wsFiltered stC3).length).findSome?
        (tryStep (wsFiltered stC3) (cycleStart (wsFiltered stC3) (activeWindowId stC3) 1) 1
          (fun cand => !(cand.cls == COPYQ_CLS) && !(cand.cls == "a.a")))).map Item.id :=
  focusOtherApp_scan_singleton.1 stC3 1 "a.a" (by decide) (by decide) (by decide)

/-! ## C4 -/

/-- Two windows `[A1, B1]` on workspace 0, `A1` focused. -/
def stC4a : World :=
  { actors := [some (mkTestWin 1 "A" 0), some (mkTestWin 2 "B" 0)]
    activeWs := some 0
    focusWindow := some (mkTestWin 1 "A" 0) }

/-- Same two windows, `B1` focused. -/
def stC4b : World := { stC4a with focusWindow := some (mkTestWin 2 "B" 0) }

/-- C4: the any-class policy scans circularly from the active position
and activates the first window that is neither the denylisted class nor
the active window itself (`none` after a full circuit, so a singleton
active window is skipped); concretely, on `[A1, B1]` Next from `A1`
activates `B1` and Next from `B1` wraps back to `A1`. -/
theorem focusAnyApp_scan :
    (∀ (st : World) (delta : Int),
      activeWindowId st ≠ "" →
      wsFiltered st ≠ [] →
      focusRelativeAnyAppTarget st delta =
        ((List.range' 1 (wsFiltered st).length).findSome?
          (tryStep (wsFiltered st) (cycleStart (wsFiltered st) (activeWindowId st) delta) delta
            (fun cand => !(cand.cls == COPYQ_CLS) &&
              !(jsToLower cand.id == jsToLower (activeWindowId st))))).map Item.id) ∧
    (∀ (st : World) (delta : Int) (only : Item),
      activeWindowId st ≠ "" →
      wsFiltered st = [only] →
      jsToLower only.id == jsToLower (activeWindowId st) →
      focusRelativeAnyAppTarget st delta = none) ∧
    focusRelativeAnyAppTarget stC4a 1 = some "0x2" ∧
    focusRelativeAnyAppTarget stC4b 1 = some "0x1" := by
  have hgen : ∀ (st : World) (delta : Int),
      activeWindowId st ≠ "" →
      wsFiltered st ≠ [] →
      focusRelativeAnyAppTarget st delta =
        ((List.range' 1 (wsFiltered st).length).findSome?
          (tryStep (wsFiltered st) (cycleStart (wsFiltered st) (activeWindowId st) delta) delta
            (fun cand => !(cand.cls == COPYQ_CLS) &&
              !(jsToLower cand.id == jsToLower (activeWindowId st))))).map Item.id := by
    intro st delta hA hne
    have hAll : listWindowsItems st ≠ [] := by
      intro h
      apply hne
      unfold wsFiltered
      rw [h]
      rfl
    unfold focusRelativeAnyAppTarget
    rw [if_neg hA, if_neg hAll]
    simp only
    rw [if_neg hne, circScan_eq_findSome _ _ _ _ hne]
  refine ⟨hgen, ?_, by decide, by decide⟩
  intro st delta only hA hOne hid
  rw [hgen st delta hA (by rw [hOne]; simp)]
  rw [hOne]
  simp [List.range', tryStep, Int.emod_one, hid]

/-- Witness for C4: the scan characterisation applied at the concrete
two-window scenario. -/
theorem focusAnyApp_scan_witness :
    focusRelativeAnyAppTarget stC4a 1 =
      ((List.range' 1 (wsFiltered stC4a).length).findSome?
        (tryStep (wsFiltered stC4a) (cycleStart (wsFiltered stC4a) (activeWindowId stC4a) 1) 1
          (fun cand => !(cand.cls == COPYQ_CLS) &&
            !(jsToLower cand.id == jsToLower (activeWindowId stC4a))))).map Item.id :=
  focusAnyApp_scan.1 stC4a 1 (by decide) (by decide)

/-! ## Character-level facts about hexadecimal digits -/

/-- Everything needed about the sixteen digit characters, by cases. -/
theorem hexDigitChar_spec : ∀ d : Nat, d < 16 →
    isHexDigitChar (hexDigitChar d) = true ∧
    hexVal (hexDigitChar d) = d ∧
    Char.toLower (hexDigitChar d) = hexDigitChar d ∧
    (hexDigitChar d).isWhitespace = false ∧
    hexDigitChar d ≠ '-' ∧ hexDigitChar d ≠ '+' ∧
    hexDigitChar d ≠ 'x' ∧ hexDigitChar d ≠ 'X' ∧
    Char.toLower (Char.toUpper (hexDigitChar d)) = hexDigitChar d ∧
    (Char.toUpper (hexDigitChar d)).isWhitespace = false ∧
    Char.toUpper (hexDigitChar d) ≠ '-' ∧ Char.toUpper (hexDigitChar d) ≠ '+' ∧
    Char.toUpper (hexDigitChar d) ≠ 'x' ∧ Char.toUpper (hexDigitChar d) ≠ 'X' := by
  intro d hd
  interval_cases d <;> exact (by decide)

/-- Lists consisting of produced digit characters. -/
def isLowerHexDigits (l : List Char) : Prop :=
  ∀ c ∈ l, ∃ d, d < 16 ∧ c = hexDigitChar d

theorem natToHexCore_digits : ∀ (fuel n : Nat), isLowerHexDigits (natToHexCore fuel n) := by
  intro fuel
  induction fuel with
  | zero => intro n c hc; cases hc
  | succ f ih =>
    intro n c hc
    match n with
    | 0 => cases hc
    | m+1 =>
      rcases List.mem_append.mp hc with h | h
      · exact ih _ c h
      · refine ⟨(m+1) % 16, Nat.mod_lt _ (by omega), ?_⟩
        simpa using h

theorem digitsVal_append_singleton (l : List Char) (c : Char) :
    digitsVal (l ++ [c]) = 16 * digitsVal l + hexVal c := by
  unfold digitsVal
  rw [List.foldl_append]
  rfl

theorem natToHexCore_val : ∀ (fuel n : Nat), n ≤ fuel →
    digitsVal (natToHexCore fuel n) = n := by
  intro fuel
  induction fuel with
  | zero =>
    intro n hn
    interval_cases n
    rfl
  | succ f ih =>
    intro n hn
    match n with
    | 0 => rfl
    | m+1 =>
      show digitsVal (natToHexCore f ((m+1) / 16) ++ [hexDigitChar ((m+1) % 16)]) = m+1
      rw [digitsVal_append_singleton]
      have hdiv : (m+1) / 16 < m+1 := Nat.div_lt_self (Nat.succ_pos m) (by omega)
      rw [ih ((m+1) / 16) (by omega)]
      rw [(hexDigitChar_spec ((m+1) % 16) (Nat.mod_lt _ (by omega))).2.1]
      have := Nat.div_add_mod (m+1) 16
      omega

theorem natToHexCore_ne_nil (fuel n : Nat) (h0 : 0 < n) (hn : n ≤ fuel) :
    natToHexCore fuel n ≠ [] := by
  match fuel, n with
  | 0, n => omega
  | f+1, m+1 => simp [natToHexCore]

theorem natToHex_digits (n : Nat) : isLowerHexDigits (natToHex n).data := by
  unfold natToHex
  split
  · intro c hc
    refine ⟨0, by omega, ?_⟩
    have : c = '0' := by
      have : (("0" : String)).data = ['0'] := rfl
      rw [this] at hc
      simpa using hc
    simpa [hexDigitChar] using this
  · exact natToHexCore_digits n n

theorem natToHex_ne_nil (n : Nat) : (natToHex n).data ≠ [] := by
  unfold natToHex
  split
  · simp [show (("0" : String)).data = ['0'] from rfl]
  · next h => exact natToHexCore_ne_nil n n (by omega) le_rfl

theorem digitsVal_natToHex (n : Nat) : digitsVal (natToHex n).data = n := by
  unfold natToHex
  split
  · next h => subst h; rfl
  · exact natToHexCore_val n n le_rfl

/-! ## List helpers for the parser proofs -/

theorem dropWhile_eq_self_of_not (p : Char → Bool) (l : List Char)
    (h : ∀ c ∈ l, p c = false) : l.dropWhile p = l := by
  cases l with
  | nil => rfl
  | cons c rest =>
    rw [List.dropWhile_cons, h c (by simp)]
    simp

theorem takeWhile_eq_self_of (p : Char → Bool) : ∀ (l : List Char),
    (∀ c ∈ l, p c = true) → l.takeWhile p = l
  | [], _ => rfl
  | c :: rest, h => by
    rw [List.takeWhile_cons, h c (by simp)]
    simp only [if_true]
    rw [takeWhile_eq_self_of p rest (fun c2 hc2 => h c2 (by simp [hc2]))]

theorem map_eq_self_of (f : Char → Char) : ∀ (l : List Char),
    (∀ c ∈ l, f c = c) → l.map f = l
  | [], _ => rfl
  | c :: rest, h => by
    simp only [List.map_cons]
    rw [h c (by simp), map_eq_self_of f rest (fun c2 hc2 => h c2 (by simp [hc2]))]

theorem jsTrim_eq_self (s : String) (h : ∀ c ∈ s.data, c.isWhitespace = false) :
    jsTrim s = s := by
  obtain ⟨d⟩ := s
  unfold jsTrim
  simp only at h ⊢
  rw [dropWhile_eq_self_of_not _ _ h,
    dropWhile_eq_self_of_not _ _ (fun c hc => h c (by simpa using hc))]
  simp

theorem jsToLower_eq_self (s : String) (h : ∀ c ∈ s.data, Char.toLower c = c) :
    jsToLower s = s := by
  obtain ⟨d⟩ := s
  unfold jsToLower
  simp only at h ⊢
  rw [map_eq_self_of _ _ h]

/-! ## Parsing a pure digit string -/

theorem stripSignHex_digits (l : List Char) (hdig : isLowerHexDigits l) :
    stripSignHex l = l := by
  unfold stripSignHex
  cases l with
  | nil => rfl
  | cons c rest =>
    obtain ⟨d, hd16, rfl⟩ := hdig c (by simp)
    obtain ⟨-, -, -, -, h5, h6, -⟩ := hexDigitChar_spec d hd16
    dsimp only
    rw [if_neg (show ¬((hexDigitChar d :: rest).head? = some '-' ∨
      (hexDigitChar d :: rest).head? = some '+') from by simp [List.head?_cons, h5, h6])]
    have hnot : ¬((hexDigitChar d :: rest).take 2 = ['0', 'x'] ∨
        (hexDigitChar d :: rest).take 2 = ['0', 'X']) := by
      cases rest with
      | nil => simp
      | cons c2 r2 =>
        obtain ⟨d2, hd2, rfl⟩ := hdig c2 (by simp)
        obtain ⟨-, -, -, -, -, -, h7x, h8x, -⟩ := hexDigitChar_spec d2 hd2
        simp [h7x, h8x]
    rw [if_neg hnot]

theorem parseSign_digits (l : List Char) (hdig : isLowerHexDigits l) :
    parseSign l = 1 := by
  unfold parseSign
  cases l with
  | nil => rfl
  | cons c rest =>
    obtain ⟨d, hd16, rfl⟩ := hdig c (by simp)
    obtain ⟨_, _, _, _, h5, _⟩ := hexDigitChar_spec d hd16
    rw [if_neg (by simp [List.head?_cons, h5])]

theorem jsParseIntHex_digits (l : List Char) (hne : l ≠ []) (hdig : isLowerHexDigits l) :
    jsParseIntHex ⟨l⟩ = some ((digitsVal l : Int)) := by
  unfold jsParseIntHex
  dsimp only
  have hws : ∀ c ∈ l, c.isWhitespace = false := by
    intro c hc
    obtain ⟨d, hd16, rfl⟩ := hdig c hc
    exact (hexDigitChar_spec d hd16).2.2.2.1
  rw [dropWhile_eq_self_of_not _ _ hws, stripSignHex_digits l hdig, parseSign_digits l hdig]
  have hhex : ∀ c ∈ l, isHexDigitChar c = true := by
    intro c hc
    obtain ⟨d, hd16, rfl⟩ := hdig c hc
    exact (hexDigitChar_spec d hd16).1
  rw [takeWhile_eq_self_of _ l hhex, if_neg hne, one_mul]

theorem not_startsWith_0x (s : String) (hdig : isLowerHexDigits s.data) :
    jsStartsWith s "0x" = false := by
  obtain ⟨l⟩ := s
  simp only at hdig
  show List.isPrefixOf ['0', 'x'] l = false
  cases l with
  | nil => rfl
  | cons c rest =>
    cases rest with
    | nil => simp [List.isPrefixOf]
    | cons c2 r2 =>
      obtain ⟨d2, hd2, rfl⟩ := hdig c2 (by simp)
      have h7 := (hexDigitChar_spec d2 hd2).2.2.2.2.2.2.1
      simp [List.isPrefixOf, beq_eq_false_iff_ne.mpr (Ne.symm h7)]

/-! ## Normalisation of canonical and variant forms -/

theorem normalizeId_from_canonical (n : Nat) (s : String)
    (hs : jsToLower (jsTrim s) = "0x" ++ natToHex n) :
    normalizeIdString s = some ("0x" ++ natToHex n) := by
  unfold normalizeIdString
  rw [hs]
  dsimp only
  have hdata : ("0x" ++ natToHex n).data = '0' :: 'x' :: (natToHex n).data := by
    rw [String.data_append]
    rfl
  have hstart : jsStartsWith ("0x" ++ natToHex n) "0x" = true := by
    unfold jsStartsWith
    rw [hdata]
    show ('0' == '0' && ('x' == 'x' && List.isPrefixOf [] (natToHex n).data)) = true
    simp [List.isPrefixOf]
  rw [if_pos hstart]
  have hdrop : jsDrop ("0x" ++ natToHex n) 2 = natToHex n := by
    unfold jsDrop
    rw [hdata]
    rfl
  rw [hdrop]
  have hparse : jsParseIntHex (natToHex n) = some ((n : Int)) := by
    have h := jsParseIntHex_digits (natToHex n).data (natToHex_ne_nil n) (natToHex_digits n)
    rw [digitsVal_natToHex] at h
    exact h
  rw [hparse]
  unfold intToHex
  dsimp only
  rw [if_neg (show ¬((n : Int) < 0) from by omega), Int.toNat_natCast]

theorem normalizeId_bare (n : Nat) :
    normalizeIdString (natToHex n) = some ("0x" ++ natToHex n) := by
  unfold normalizeIdString
  have hws : ∀ c ∈ (natToHex n).data, c.isWhitespace = false := by
    intro c hc
    obtain ⟨d, hd16, rfl⟩ := natToHex_digits n c hc
    exact (hexDigitChar_spec d hd16).2.2.2.1
  have hlow : ∀ c ∈ (natToHex n).data, Char.toLower c = c := by
    intro c hc
    obtain ⟨d, hd16, rfl⟩ := natToHex_digits n c hc
    exact (hexDigitChar_spec d hd16).2.2.1
  rw [jsTrim_eq_self _ hws, jsToLower_eq_self _ hlow]
  dsimp only
  have hstart := not_startsWith_0x (natToHex n) (natToHex_digits n)
  rw [if_neg (by simp [hstart])]
  have hparse : jsParseIntHex (natToHex n) = some ((n : Int)) := by
    have h := jsParseIntHex_digits (natToHex n).data (natToHex_ne_nil n) (natToHex_digits n)
    rw [digitsVal_natToHex] at h
    exact h
  rw [hparse]
  unfold intToHex
  dsimp only
  rw [if_neg (show ¬((n : Int) < 0) from by omega), Int.toNat_natCast]

/-- JS `String.prototype.toUpperCase` (ASCII), used to build the
case-variant inputs of the claim. -/
def strToUpper (s : String) : String := ⟨s.data.map Char.toUpper⟩

theorem normalizeId_upper_variant (n : Nat) :
    normalizeIdString ("0X" ++ strToUpper (natToHex n)) = some ("0x" ++ natToHex n) := by
  apply normalizeId_from_canonical
  have hdata : ("0X" ++ strToUpper (natToHex n)).data
      = '0' :: 'X' :: (natToHex n).data.map Char.toUpper := by
    rw [String.data_append]
    rfl
  have hws : ∀ c ∈ ("0X" ++ strToUpper (natToHex n)).data, c.isWhitespace = false := by
    rw [hdata]
    intro c hc
    simp only [List.mem_cons] at hc
    rcases hc with rfl | rfl | hc
    · decide
    · decide
    · obtain ⟨c0, hc0, rfl⟩ := List.mem_map.mp hc
      obtain ⟨d, hd16, rfl⟩ := natToHex_digits n c0 hc0
      exact (hexDigitChar_spec d hd16).2.2.2.2.2.2.2.2.2.1
  rw [jsTrim_eq_self _ hws]
  unfold jsToLower
  rw [hdata]
  have hmap : ((natToHex n).data.map Char.toUpper).map Char.toLower = (natToHex n).data := by
    rw [List.map_map]
    apply map_eq_self_of
    intro c hc
    obtain ⟨d, hd16, rfl⟩ := natToHex_digits n c hc
    exact (hexDigitChar_spec d hd16).2.2.2.2.2.2.2.2.1
  show String.mk ('0'.toLower :: 'X'.toLower :: ((natToHex n).data.map Char.toUpper).map Char.toLower)
    = "0x" ++ natToHex n
  rw [hmap, show '0'.toLower = '0' from by decide, show 'X'.toLower = 'x' from by decide]
  apply String.ext
  rw [String.data_append]
  rfl

/-- The specification's "numeric input" test: after the normalisation
pipeline's trimming, lowercasing, `0x` stripping and the parser's own
sign/prefix stripping, the remainder begins with a hexadecimal digit. -/
def hexNumeralStart (s : String) : Bool :=
  let t := jsToLower (jsTrim s)
  let t := if jsStartsWith t "0x" then jsDrop t 2 else t
  match (stripSignHex (t.data.dropWhile Char.isWhitespace)).head? with
  | some c => isHexDigitChar c
  | none => false

theorem normalizeId_none_iff (s : String) :
    normalizeIdString s = none ↔ hexNumeralStart s = false := by
  unfold normalizeIdString hexNumeralStart jsParseIntHex
  dsimp only
  cases hl : stripSignHex ((if jsStartsWith (jsToLower (jsTrim s)) "0x"
      then jsDrop (jsToLower (jsTrim s)) 2 else jsToLower (jsTrim s)).data.dropWhile
      Char.isWhitespace) with
  | nil => simp
  | cons c r =>
    by_cases hp : isHexDigitChar c
    · simp [List.takeWhile_cons, hp]
    · simp [List.takeWhile_cons, hp]

/-! ## C5 -/

/-- C5: `normalizeIdString` maps the resolver's canonical output back to
itself for every window with a non-zero native numeric id; it accepts the
uppercase/`0X`-prefixed and bare (no-prefix) variants of any hex numeral,
producing the canonical lowercase `0x` form; and it signals invalid
(`none`) exactly when the input does not begin with a hexadecimal
numeral. -/
theorem normalizeId_roundtrip :
    (∀ (w : Win) (n : Nat), w.xid = some n → n ≠ 0 →
      normalizeIdString (toHexId w) = some (toHexId w)) ∧
    (∀ n : Nat,
      normalizeIdString ("0X" ++ strToUpper (natToHex n)) = some ("0x" ++ natToHex n) ∧
      normalizeIdString (natToHex n) = some ("0x" ++ natToHex n)) ∧
    (∀ s : String, normalizeIdString s = none ↔ hexNumeralStart s = false) := by
  refine ⟨?_, fun n => ⟨normalizeId_upper_variant n, normalizeId_bare n⟩, normalizeId_none_iff⟩
  intro w n hx hn
  have hid : toHexId w = "0x" ++ natToHex n := by
    unfold toHexId
    rw [hx]
    dsimp only
    rw [if_pos hn]
  rw [hid]
  apply normalizeId_from_canonical
  have hdata : ("0x" ++ natToHex n).data = '0' :: 'x' :: (natToHex n).data := by
    rw [String.data_append]
    rfl
  have hws : ∀ c ∈ ("0x" ++ natToHex n).data, c.isWhitespace = false := by
    rw [hdata]
    intro c hc
    simp only [List.mem_cons] at hc
    rcases hc with rfl | rfl | hc
    · decide
    · decide
    · obtain ⟨d, hd16, rfl⟩ := natToHex_digits n c hc
      exact (hexDigitChar_spec d hd16).2.2.2.1
  have hlow : ∀ c ∈ ("0x" ++ natToHex n).data, Char.toLower c = c := by
    rw [hdata]
    intro c hc
    simp only [List.mem_cons] at hc
    rcases hc with rfl | rfl | hc
    · decide
    · decide
    · obtain ⟨d, hd16, rfl⟩ := natToHex_digits n c hc
      exact (hexDigitChar_spec d hd16).2.2.1
  rw [jsTrim_eq_self _ hws, jsToLower_eq_self _ hlow]

/-- Witness for C5: the round trip applied to a concrete window with
native id 26 (`"0x1a"`). -/
theorem normalizeId_roundtrip_witness :
    normalizeIdString (toHexId (mkTestWin 26 "A" 0)) = some (toHexId (mkTestWin 26 "A" 0)) :=
  normalizeId_roundtrip.1 (mkTestWin 26 "A" 0) 26 (by decide) (by decide)

/-! ## C6 -/

theorem le_foldl_max_init : ∀ (l : List Int) (b : Int), b ≤ l.foldl max b
  | [], b => le_refl b
  | k :: l, b => le_trans (le_max_left b k) (le_foldl_max_init l (max b k))

theorem le_foldl_max_of_mem : ∀ (l : List Int) (b k : Int), k ∈ l → k ≤ l.foldl max b
  | [], _, _, h => absurd h (List.not_mem_nil _)
  | k2 :: l, b, k, h => by
    rcases List.mem_cons.mp h with rfl | h
    · exact le_trans (le_max_right b k) (le_foldl_max_init l (max b k))
    · exact le_foldl_max_of_mem l (max b k2) k h

theorem maxKeyOf_is_max (items : List Item) : ∀ it ∈ items, it.key ≤ maxKeyOf items := by
  intro it hmem
  unfold maxKeyOf
  cases hmap : items.map Item.key with
  | nil =>
    rw [List.map_eq_nil_iff] at hmap
    subst hmap
    cases hmem
  | cons k ks =>
    have hk : it.key ∈ k :: ks := by
      rw [← hmap]
      exact List.mem_map_of_mem _ hmem
    rcases List.mem_cons.mp hk with h | h
    · rw [h]
      exact le_foldl_max_init ks k
    · exact le_foldl_max_of_mem ks k _ h

/-- C6: the spawn-time `maxKey` is an upper bound of every snapshot
entry's order key, and the `window-created` handler ignores any window
whose order key is at or below the threshold — it is neither a direct
match nor enrolled in the delayed class-change watch, even when its class
equals the expected application id. -/
theorem launchThreshold_excludes_old :
    (∀ (items : List Item), ∀ it ∈ items, it.key ≤ maxKeyOf items) ∧
    (∀ (maxKey : Int) (appId : String) (w : Win),
      creationOrderKey w ≤ maxKey →
      windowCreatedAction maxKey appId w = .ignored) := by
  refine ⟨fun items => maxKeyOf_is_max items, ?_⟩
  intro maxKey appId w hk
  unfold windowCreatedAction
  dsimp only
  have h2 : ¬(creationOrderKey w > maxKey) := by omega
  rw [if_neg (fun h => h2 h.2), if_neg h2]

/-- Witness for C6: a pre-existing window with key 3 and exactly the
expected class is ignored under threshold 5; a singleton snapshot's key
is bounded by its own `maxKey`. -/
theorem launchThreshold_excludes_old_witness :
    creationOrderKey (mkTestWin 3 "A" 0) ≤ 5 ∧
    classInstance (mkTestWin 3 "A" 0) = jsToLower "A.A" ∧
    windowCreatedAction 5 "A.A" (mkTestWin 3 "A" 0) = .ignored ∧
    (⟨1, "0x1", 0, "a.a", ""⟩ : Item).key ≤ maxKeyOf [⟨1, "0x1", 0, "a.a", ""⟩] :=
  ⟨by decide, by decide,
   launchThreshold_excludes_old.2 5 "A.A" (mkTestWin 3 "A" 0) (by decide),
   launchThreshold_excludes_old.1 [⟨1, "0x1", 0, "a.a", ""⟩] ⟨1, "0x1", 0, "a.a", ""⟩
     (by decide)⟩

/-! ## C9 -/

theorem toInt32_eq_self {n : Int} (h1 : -(2 ^ 31) ≤ n) (h2 : n < 2 ^ 31) : toInt32 n = n := by
  unfold toInt32
  have h3 : (n + 2 ^ 31) % 2 ^ 32 = n + 2 ^ 31 := Int.emod_eq_of_lt (by omega) (by omega)
  omega

/-- C9: `ResizeById` rejects non-positive dimensions without invoking the
move-resize primitive; with valid dimensions it invokes `move_resize_frame`
flagged user-initiated, at the window's current frame position (default
`(0,0)`), with the requested dimensions. -/
theorem resizeById_validates :
    (∀ (st : World) (id : String) (width height : Int),
      -(2 ^ 31) ≤ width → width < 2 ^ 31 → -(2 ^ 31) ≤ height → height < 2 ^ 31 →
      (width ≤ 0 ∨ height ≤ 0) →
      resizeWindowById st id width height = (false, none)) ∧
    (∀ (st : World) (id : String) (width height : Int) (w : Win),
      -(2 ^ 31) ≤ width → width < 2 ^ 31 → -(2 ^ 31) ≤ height → height < 2 ^ 31 →
      0 < width → 0 < height →
      findWindowById st id = some w →
      w.hasMoveResize = true → w.moveResizeRaises = false →
      resizeWindowById st id width height =
        (true, some { userOp := true, x := (w.frameRect.getD (0, 0)).1,
                      y := (w.frameRect.getD (0, 0)).2, w := width, h := height })) := by
  constructor
  · intro st id width height hw1 hw2 hh1 hh2 hinval
    unfold resizeWindowById
    cases hf : findWindowById st id with
    | none => rfl
    | some w =>
      dsimp only
      rw [toInt32_eq_self hw1 hw2, toInt32_eq_self hh1 hh2]
      rw [if_pos (by omega)]
  · intro st id width height w hw1 hw2 hh1 hh2 hwpos hhpos hf hmv hraise
    unfold resizeWindowById
    rw [hf]
    dsimp only
    rw [toInt32_eq_self hw1 hw2, toInt32_eq_self hh1 hh2]
    rw [if_neg (by omega)]
    cases hr : w.frameRect with
    | none => simp [hmv, hraise, hr]
    | some p =>
      obtain ⟨a, b⟩ := p
      simp [hmv, hraise, hr]

/-- A one-window world for the resize witness. -/
def stC9 : World :=
  { actors := [some (mkTestWin 1 "A" 0)], activeWs := some 0, focusWindow := none }

/-- Witness for C9: a zero width is rejected; `640×480` is applied at the
preserved position. -/
theorem resizeById_validates_witness :
    resizeWindowById stC9 "0x1" 0 100 = (false, none) ∧
    resizeWindowById stC9 "0x1" 640 480 =
      (true, some { userOp := true, x := 0, y := 0, w := 640, h := 480 }) := by
  constructor
  · exact resizeById_validates.1 stC9 "0x1" 0 100 (by decide) (by decide) (by decide)
      (by decide) (by decide)
  · have h := resizeById_validates.2 stC9 "0x1" 640 480 (mkTestWin 1 "A" 0) (by decide)
      (by decide) (by decide) (by decide) (by decide) (by decide) (by decide) (by decide)
      (by decide)
    exact h.trans (by decide)

/-! ## C10 -/

/-- A skip-taskbar (dock-like) window: excluded from the task list but
still a possible focus window. -/
def mkDockWin (n : Nat) : Win :=
  { xid := some n, stableSeq := some n, wmInstance := some "Dock", wmClass := some "Dock",
    wsIndex := some 0, skipTaskbar := true }

/-- Windows `A`, `B` plus a focused skip-taskbar window with id `0xf`. -/
def stC10 : World :=
  { actors := [some (mkTestWin 1 "A" 0), some (mkTestWin 2 "B" 0), some (mkDockWin 15)]
    activeWs := some 0
    focusWindow := some (mkDockWin 15) }

/-- C10, refuting the claim as stated: with a skip-taskbar focus window
(`0xf`, absent from the listing) and eligible candidate windows present,
the same-class and other-class operations FAIL (return false) — their
active-class resolution only consults taskbar-filtered windows — so it is
not true that "the focus-cycle operations do not fail on the missing
active window". -/
theorem activeWindow_unfiltered_counterexample :
    activeWindowId stC10 = "0xf" ∧
    "0xf" ∉ (listWindowsItems stC10).map Item.id ∧
    (listWindowsItems stC10).map Item.id = ["0x1", "0x2"] ∧
    activeClsResolved stC10 = none ∧
    activeClsOtherResolved stC10 = none ∧
    focusRelativeSameAppTarget stC10 1 = none ∧
    focusRelativeOtherAppTarget stC10 1 = none := by
  decide

/-- C10 as amended: `GetActiveWindow` reports the focus window's id
without the taskbar-eligibility filter, so the id can be absent from the
listing; in that case the ANY-CLASS operation does not fail but falls
back to position `-1` (one-before-first) for a forward step and `0`
(first) for a backward step and still activates a window, while the
same-class and other-class operations return false, because their
active-class resolution only consults taskbar-filtered windows. -/
theorem activeWindow_unfiltered :
    (∀ (items : List Item) (activeId : String) (delta : Int),
      items.findIdx? (fun it => jsToLower it.id == jsToLower activeId) = none →
      cycleStart items activeId delta = if delta > 0 then -1 else 0) ∧
    activeWindowId stC10 = "0xf" ∧
    (listWindowsItems stC10).map Item.id = ["0x1", "0x2"] ∧
    "0xf" ∉ (listWindowsItems stC10).map Item.id ∧
    focusRelativeAnyAppTarget stC10 1 = some "0x1" ∧
    focusRelativeAnyAppTarget stC10 (-1) = some "0x2" ∧
    focusRelativeSameAppTarget stC10 1 = none ∧
    focusRelativeOtherAppTarget stC10 1 = none ∧
    (∀ (st : World) (delta : Int),
      activeClsResolved st = none → focusRelativeSameAppTarget st delta = none) ∧
    (∀ (st : World) (delta : Int),
      activeClsOtherResolved st = none → focusRelativeOtherAppTarget st delta = none) := by
  refine ⟨?_, by decide, by decide, by decide, by decide, by decide, by decide, by decide,
    ?_, ?_⟩
  · intro items activeId delta h
    unfold cycleStart
    rw [h]
  · intro st delta h
    unfold focusRelativeSameAppTarget
    by_cases hA : activeWindowId st = ""
    · rw [if_pos hA]
    · rw [if_neg hA]
      by_cases hAll : listWindowsItems st = []
      · rw [if_pos hAll]
      · rw [if_neg hAll, h]
  · intro st delta h
    unfold focusRelativeOtherAppTarget
    by_cases hA : activeWindowId st = ""
    · rw [if_pos hA]
    · rw [if_neg hA]
      by_cases hAll : listWindowsItems st = []
      · rw [if_pos hAll]
      · rw [if_neg hAll, h]

/-- Witness for C10: the fallback applied to the restricted list of the
concrete state, whose active id is not in the list. -/
theorem activeWindow_unfiltered_witness :
    cycleStart (wsFiltered stC10) "0xf" 1 = -1 := by
  have h := activeWindow_unfiltered.1 (wsFiltered stC10) "0xf" 1 (by decide)
  rw [h]
  decide

/-! ## C7 -/

/-- C7 (refuted as stated, on the resource machine): a delayed match
reaches the terminal matched state with its 5-second sub-timeout timer
still live, and a direct match on a second window leaves the first
candidate's class-change subscription live; the part of the claim that
does hold is that the window-created subscription is torn down at the
match, so a subsequently created window is not considered. -/
theorem launchWatch_resource_leak :
    (runWatch "a.a" 5 [.windowCreated 1 6 "b.b", .classChanged 1 "a.a"]).matched = true ∧
    ((runWatch "a.a" 5 [.windowCreated 1 6 "b.b", .classChanged 1 "a.a"]).cands.map
      CandWatch.subTimerLive = [true]) ∧
    ¬(runWatch "a.a" 5 [.windowCreated 1 6 "b.b", .classChanged 1 "a.a"]).clean ∧
    (runWatch "a.a" 5 [.windowCreated 1 6 "b.b", .windowCreated 2 7 "a.a"]).matched = true ∧
    ((runWatch "a.a" 5 [.windowCreated 1 6 "b.b", .windowCreated 2 7 "a.a"]).cands.map
      CandWatch.notifyLive = [true]) ∧
    (runWatch "a.a" 5 [.windowCreated 1 6 "a.a"]).handlerLive = false ∧
    (runWatch "a.a" 5 [.windowCreated 1 6 "a.a", .windowCreated 2 7 "a.a"] =
      runWatch "a.a" 5 [.windowCreated 1 6 "a.a"]) := by
  decide

/-! ## C8 -/

/-- A world whose `get_window_actors` raises. -/
def stC8 : WorldE :=
  { actors := [], activeWs := some 0, focusWindow := none, actorsRaise := true }

/-- C8 (refuted as stated): when the enumeration raises, `LaunchHere`
lets the exception escape (`_launchHere` is the one handler without a
surrounding `try`/`catch`), while `ListWindows` catches it and still
returns a well-formed result. -/
theorem launchHere_exception_escapes :
    launchHereE stC8 false = .error () ∧
    listWindowsTextE stC8 = .ok "" :=
  ⟨rfl, rfl⟩

end WMCtrl
